import Mathlib

/-!
Shallow embedding of the vscode-debug-mcp debug server core
(`src/debug-server.ts`, bundled in the repository sources, and the
stdio bridge `src/mcp/src/index.ts`), together with theorems checking
the natural-language specification against it.

JavaScript-specific conventions used throughout:
* an optional string argument is modelled as `Option String`, and the
  JS truthiness test `if (x)` on it is `truthyStr` (both `undefined`
  and the empty string are falsy);
* an optional numeric argument that the code tests with `if (x)` is
  modelled as `Option Nat` with `truthyNat` (`undefined` and `0` are
  falsy);
* `a?.x || b` chains on strings are `jsOrStr`;
* `JSON.stringify` dropping `undefined` object fields is modelled by
  `Option` fields that are `none`.
-/

namespace DebugMcp

/-- JS truthiness of an optional string: undefined and the empty string
are falsy. -/
def truthyStr : Option String → Bool
  | none => false
  | some s => s ≠ ""

/-- JS truthiness of an optional natural number: undefined and 0 are
falsy. -/
def truthyNat : Option Nat → Bool
  | none => false
  | some n => n ≠ 0

/-- JS `a || b` for an optional string `a`: falls through on undefined
and on the empty string. -/
def jsOrStr : Option String → String → String
  | none, b => b
  | some s, b => if s = "" then b else s

/-! ## Breakpoint store (`DebugServer.handleBreakpoints`)

The host breakpoint store `vscode.debug.breakpoints` is a list of
breakpoints; source breakpoints carry a file path
(`location.uri.fsPath`), a 0-based line (`location.range.start.line`),
an enabled flag and the optional condition / hitCondition / logMessage
fields. Other breakpoint kinds (function breakpoints) are represented
by a separate constructor, since the handlers filter on
`instanceof vscode.SourceBreakpoint`. -/

/-- A `vscode.SourceBreakpoint` as stored in the host breakpoint
store. `line` is the 0-based stored line. -/
structure SourceBreakpoint where
  file : String
  line : Nat
  enabled : Bool
  condition : Option String
  hitCondition : Option String
  logMessage : Option String
deriving DecidableEq, Repr

/-- An entry of `vscode.debug.breakpoints`: either a source breakpoint
or some other breakpoint kind (e.g. a function breakpoint). -/
inductive VsBreakpoint where
  | source (bp : SourceBreakpoint)
  | functionBp (fnName : String) (enabled : Bool)
deriving DecidableEq, Repr

/-- One entry of the `list` action result: 1-based line. -/
structure BpListEntry where
  file : String
  line : Nat
  enabled : Bool
  condition : Option String
  hitCondition : Option String
  logMessage : Option String
deriving DecidableEq, Repr

/-- Result of `handleBreakpoints`: a thrown error, or the JSON result
object of the set / remove / list action. -/
inductive BpResult where
  | error (msg : String)
  | setOk (message : String) (file : String) (line : Nat)
      (condition hitCondition logMessage : Option String)
  | removeOk (message : String) (removed : Nat)
  | listOk (breakpoints : List BpListEntry) (count : Nat)
deriving DecidableEq, Repr

/-- Arguments of the `debug_breakpoints` tool. -/
structure BpArgs where
  action : String
  file : Option String := none
  line : Option Nat := none
  condition : Option String := none
  hitCondition : Option String := none
  logMessage : Option String := none
deriving DecidableEq, Repr

/-- The predicate of the `remove` filter: a source breakpoint whose
`fsPath` equals the given file and whose 0-based stored line equals the
given (1-based) line minus one. Non-source breakpoints never match. -/
def matchesRemoveTarget (file : String) (line : Nat) : VsBreakpoint → Bool
  | .source bp => bp.file == file && bp.line == line - 1
  | .functionBp _ _ => false

/-- `DebugServer.handleBreakpoints`, as a function from the current
host breakpoint store and the tool arguments to the new store and the
result. Opening and showing the document in the `set` action is a host
side effect with no bearing on the store and is modelled as
succeeding; `vscode.debug.addBreakpoints` appends, and
`vscode.debug.removeBreakpoints` deletes exactly the given
breakpoints. -/
def handleBreakpoints (store : List VsBreakpoint) (args : BpArgs) :
    List VsBreakpoint × BpResult :=
  match args.action with
  | "set" =>
    if ¬ truthyStr args.file then
      (store, .error "file is required for set action")
    else if ¬ truthyNat args.line then
      (store, .error "line is required for set action")
    else
      let file := args.file.getD ""
      let line := args.line.getD 0
      let bp : SourceBreakpoint :=
        { file := file, line := line - 1, enabled := true,
          condition := args.condition, hitCondition := args.hitCondition,
          logMessage := args.logMessage }
      (store ++ [.source bp],
        .setOk ("Breakpoint set at " ++ file ++ ":" ++ toString line)
          file line args.condition args.hitCondition args.logMessage)
  | "remove" =>
    if ¬ truthyStr args.file then
      (store, .error "file is required for remove action")
    else if ¬ truthyNat args.line then
      (store, .error "line is required for remove action")
    else
      let file := args.file.getD ""
      let line := args.line.getD 0
      let bps := store.filter (matchesRemoveTarget file line)
      if bps.length = 0 then
        (store,
          .removeOk ("No breakpoint found at " ++ file ++ ":" ++ toString line) 0)
      else
        (store.filter (fun bp => ! matchesRemoveTarget file line bp),
          .removeOk ("Removed " ++ toString bps.length ++ " breakpoint(s) at "
              ++ file ++ ":" ++ toString line)
            bps.length)
  | "list" =>
    let breakpoints := store.filterMap (fun b =>
      match b with
      | .source bp =>
        some { file := bp.file, line := bp.line + 1, enabled := bp.enabled,
               condition := bp.condition, hitCondition := bp.hitCondition,
               logMessage := bp.logMessage : BpListEntry }
      | .functionBp _ _ => none)
    (store, .listOk breakpoints breakpoints.length)
  | other => (store, .error ("Unknown breakpoints action: " ++ other))

/-! ## JSON values

Launch configurations and the port registry are parsed JSON; `JVal` is
the JSON value model. -/

/-- A JSON value. -/
inductive JVal where
  | num (n : Int)
  | str (s : String)
  | boolean (b : Bool)
  | nul
  | arr (elems : List JVal)
  | obj (fields : List (String × JVal))

/-! ## Launch configuration selection (`DebugServer.handleExecute`, case `launch`) -/

/-- Replace every occurrence of the (non-empty) pattern `p :: ps` in a
character list, scanning left to right without overlap, exactly like
the JS global regex replace of a fixed pattern. The fuel argument is
for structural termination; `replaceAllChars` supplies enough fuel. -/
def replaceAllFuel (p : Char) (ps repl : List Char) : Nat → List Char → List Char
  | 0, s => s
  | _ + 1, [] => []
  | fuel + 1, c :: rest =>
    if (p :: ps).isPrefixOf (c :: rest) then
      repl ++ replaceAllFuel p ps repl fuel (rest.drop ps.length)
    else
      c :: replaceAllFuel p ps repl fuel rest

/-- Replace every occurrence of the non-empty pattern in a character
list. -/
def replaceAllChars (p : Char) (ps repl s : List Char) : List Char :=
  replaceAllFuel p ps repl (s.length + 1) s

/-- JS `str.replace(/\$\x7bworkspaceFolder\x7d/g, root)`: substitute the
workspace-root path for every occurrence of the placeholder. -/
def replaceWorkspaceFolder (root : String) (s : String) : String :=
  String.mk (replaceAllChars '$' "{workspaceFolder}".data root.data s.data)

/-- `replacePlaceholders` from the `launch` handler: recursively
substitute the workspace-root placeholder in every string value of the
configuration object (object keys are not substituted). -/
def replacePlaceholders (root : String) : JVal → JVal
  | .str s => .str (replaceWorkspaceFolder root s)
  | .arr elems => .arr (elems.attach.map (fun e => replacePlaceholders root e.1))
  | .obj fields =>
    .obj (fields.attach.map (fun f => (f.1.1, replacePlaceholders root f.1.2)))
  | .num n => .num n
  | .boolean b => .boolean b
  | .nul => .nul
decreasing_by
  · have h := List.sizeOf_lt_of_mem e.2
    simp at *
    omega
  · have h := List.sizeOf_lt_of_mem f.2
    have h2 : sizeOf f.1.2 < sizeOf f.1 := by
      obtain ⟨a, b⟩ := f.1
      simp
    simp at *
    omega

/-- A launch configuration: its `name` property plus the remaining
object fields. -/
structure LaunchCfg where
  name : String
  fields : List (String × JVal)

/-- JS object property assignment `obj[k] = v`: overwrite an existing
key, otherwise append. -/
def setField (fields : List (String × JVal)) (k : String) (v : JVal) :
    List (String × JVal) :=
  if fields.any (fun f => f.1 == k) then
    fields.map (fun f => if f.1 == k then (k, v) else f)
  else
    fields ++ [(k, v)]

/-- The configuration object actually handed to
`vscode.debug.startDebugging`: a copy of the selected configuration
with the workspace-root placeholder substituted in every string field
and, when `noDebug` was passed truthy, a `noDebug: true` field. -/
def launchPreparedConfig (root : String) (c : LaunchCfg) (noDebug : Option Bool) :
    LaunchCfg :=
  let c1 : LaunchCfg :=
    { name := replaceWorkspaceFolder root c.name,
      fields := c.fields.map (fun f => (f.1, replacePlaceholders root f.2)) }
  if noDebug = some true then
    { c1 with fields := setField c1.fields "noDebug" (.boolean true) }
  else
    c1

/-- Outcome of the `launch` case of `handleExecute`, up to the point
where the host debugger is invoked: a thrown error, the
multiple-configurations listing, the already-active message, or the
decision to start a session with the prepared configuration
(`start cfg` is the unique path on which any host debugger API is
reached). -/
inductive LaunchOutcome where
  | error (msg : String)
  | multipleConfigs (message : String) (configurations : List String)
  | alreadyActive (message : String)
  | start (config : LaunchCfg)

/-- The `launch` case of `DebugServer.handleExecute`, as a function of
the first workspace folder path (`none` when there is no workspace),
the configurations read from the launch settings (`none` when the key
is absent), the tool arguments, and whether a debug session is
currently active. -/
def handleLaunch (workspaceFolder : Option String)
    (configurations : Option (List LaunchCfg))
    (configurationName : Option String) (noDebug : Option Bool)
    (sessionActive : Bool) : LaunchOutcome :=
  match workspaceFolder with
  | none => .error "No workspace folder found"
  | some root =>
    match configurations with
    | none => .error "No debug configurations found in launch.json"
    | some [] => .error "No debug configurations found in launch.json"
    | some (c0 :: rest) =>
      let configs := c0 :: rest
      let finish : LaunchCfg → LaunchOutcome := fun c =>
        if sessionActive then .alreadyActive "Debug session already active"
        else .start (launchPreparedConfig root c noDebug)
      if truthyStr configurationName then
        let nm := configurationName.getD ""
        match configs.find? (fun c => c.name == nm) with
        | some c => finish c
        | none =>
          .error ("Configuration \"" ++ nm ++ "\" not found. Available: "
            ++ String.intercalate ", " (configs.map (fun c => c.name)))
      else
        match rest with
        | [] => finish c0
        | _ :: _ =>
          .multipleConfigs "Multiple debug configurations available. Specify configurationName."
            (configs.map (fun c => c.name))

/-! ## Execution-control dispatch (`DebugServer.handleExecute`,
cases continue / stepOver / stepIn / stepOut)

After resolving the thread id, the handler chooses between the
high-level workbench command and a direct low-level DAP custom
request. -/

/-- The four execution-control actions of the continue / step switch
cases. -/
inductive StepLikeAction where
  | cont
  | stepOver
  | stepIn
  | stepOut
deriving DecidableEq, Repr

/-- `dapCommandMap` from the handler. -/
def dapCommandMap : StepLikeAction → String
  | .cont => "continue"
  | .stepOver => "next"
  | .stepIn => "stepIn"
  | .stepOut => "stepOut"

/-- `vscodeCommandMap` from the handler. -/
def vscodeCommandMap : StepLikeAction → String
  | .cont => "workbench.action.debug.continue"
  | .stepOver => "workbench.action.debug.stepOver"
  | .stepIn => "workbench.action.debug.stepInto"
  | .stepOut => "workbench.action.debug.stepOut"

/-- Arguments of the low-level DAP request: the resolved thread id,
plus the granularity field when it was added. -/
structure DapExecArgs where
  threadId : Nat
  granularity : Option String
deriving DecidableEq, Repr

/-- The execution path chosen for a continue / step action. -/
inductive ExecPath where
  | highLevel (command : String)
  | lowLevel (dapCommand : String) (args : DapExecArgs)
deriving DecidableEq, Repr

/-- True on the low-level DAP custom-request path. -/
def ExecPath.isLowLevel : ExecPath → Bool
  | .highLevel _ => false
  | .lowLevel _ _ => true

/-- The `useCustomRequest` condition:
`args.threadId !== undefined || (args.granularity && args.action !== 'continue')`. -/
def useCustomRequest (threadIdArg : Option Nat) (granularity : Option String)
    (action : StepLikeAction) : Bool :=
  threadIdArg.isSome || (truthyStr granularity && action != .cont)

/-- The dispatch of a continue / step action onto the high-level
workbench command or the low-level DAP request, with the resolved
thread id; granularity is added to the DAP arguments only for truthy
granularity on a step action. -/
def dispatchExecution (action : StepLikeAction) (threadIdArg : Option Nat)
    (granularity : Option String) (resolvedThreadId : Nat) : ExecPath :=
  if useCustomRequest threadIdArg granularity action then
    .lowLevel (dapCommandMap action)
      { threadId := resolvedThreadId,
        granularity :=
          if truthyStr granularity && action != .cont then granularity else none }
  else
    .highLevel (vscodeCommandMap action)

/-! ## The `/tcp` endpoint (`DebugServer.start`)

The handler reads the request body, parses it as JSON, dispatches on
the `type` field, and always answers with a `{success, data? | error?}`
envelope; any exception thrown by parsing or by the tool handler is
caught and turned into a failure envelope. JSON parsing itself is
modelled by an `Except String TcpRequest` input (`Except.error` is an
unparseable body), and the three tool handlers are a parameter, since
their results depend on the host debugger. `JSON.stringify` drops an
`undefined` data field, so `data` is an `Option`. -/

/-- A parsed `/tcp` request body: its `type` field and, for tool
calls, the `tool` field. -/
structure TcpRequest where
  type : String
  tool : Option String
deriving DecidableEq, Repr

/-- Payload of a success envelope: the fixed tool list, or a tool call
result (an opaque JSON serialization). -/
inductive EnvData where
  | toolsList
  | toolResult (value : String)
deriving DecidableEq, Repr

/-- The `{success, data?, error?}` response envelope. `none` fields are
absent from the serialized JSON. -/
structure Envelope where
  success : Bool
  data : Option EnvData
  error : Option String
deriving DecidableEq, Repr

/-- `DebugServer.handleCommand`: dispatch of a `callTool` request onto
the three tool handlers; the handler results are parameters because
they depend on the host debugger state. Unknown tools throw. -/
def handleCommand (execResult bpResult inspectResult : Except String String)
    (req : TcpRequest) : Except String String :=
  match req.tool with
  | some "debug_execute" => execResult
  | some "debug_breakpoints" => bpResult
  | some "debug_inspect" => inspectResult
  | some t => .error ("Unknown tool: " ++ t)
  | none => .error "Unknown tool: undefined"

/-- The `/tcp` request handler: parse outcome in, envelope out. An
unparseable body or a throwing tool call lands in the catch branch and
produces a failure envelope; a recognized `type` produces a success
envelope with data; any other `type` leaves `response` undefined and
produces `{success: true}` with no data field. -/
def tcpHandle (handler : TcpRequest → Except String String)
    (parsed : Except String TcpRequest) : Envelope :=
  match parsed with
  | .error e => { success := false, data := none, error := some e }
  | .ok req =>
    if req.type = "listTools" then
      { success := true, data := some .toolsList, error := none }
    else if req.type = "callTool" then
      match handler req with
      | .ok v => { success := true, data := some (.toolResult v), error := none }
      | .error e => { success := false, data := none, error := some e }
    else
      { success := true, data := none, error := none }

/-- A tool-call handler whose every call throws; used to exercise the
envelope independently of the host debugger. -/
def throwingToolHandler : TcpRequest → Except String String :=
  fun _ => .error "handler should not be reached"

/-! ## Port registry lookup (`getPortFromConfig` in the stdio bridge)

The bridge reads `port-config.json` as a JSON object, then scans its
entries for the workspace-root key that is the longest match of its
current working directory (equality, or key-plus-separator as a
prefix). The registry input is `none` when the file does not exist or
reading/parsing failed (the catch branch); the path separator is the
POSIX `/`. -/

/-- The match test of the scan:
`cwd === workspacePath || cwd.startsWith(workspacePath + path.sep)`. -/
def cwdMatches (cwd wp : String) : Bool :=
  cwd == wp || (wp ++ "/").data.isPrefixOf cwd.data

/-- One iteration of the registry scan: skip non-number values, and
take the entry when it matches the working directory and its key is
strictly longer than the best key so far. -/
def portScanStep (cwd : String) (acc : String × Option Int) (e : String × JVal) :
    String × Option Int :=
  match e.2 with
  | .num port =>
    if cwdMatches cwd e.1 ∧ acc.1.length < e.1.length then (e.1, some port)
    else acc
  | _ => acc

/-- The registry scan: fold over the object entries starting from
`bestMatch = ''`, `bestPort = null`. -/
def bestRegistryMatch (cwd : String) (entries : List (String × JVal)) :
    String × Option Int :=
  entries.foldl (portScanStep cwd) ("", none)

/-- The numeric values of the registry, in entry order (the fallback
`Object.values(registry).filter(typeof number)`). -/
def registryNumericPorts (entries : List (String × JVal)) : List Int :=
  entries.filterMap (fun e =>
    match e.2 with
    | .num p => some p
    | _ => none)

/-- `getPortFromConfig` from the stdio bridge: longest-match lookup of
the working directory, then the first-numeric-value fallback, then the
default port 4711. -/
def getPortFromConfig (registry : Option (List (String × JVal))) (cwd : String) :
    Int :=
  match registry with
  | none => 4711
  | some entries =>
    match (bestRegistryMatch cwd entries).2 with
    | some p => p
    | none =>
      match registryNumericPorts entries with
      | [] => 4711
      | p :: _ => p

/-! ## The stop-wait race (`DebugServer.executeAndWaitForStop` and
`DebugServer.waitForLaunchResult`)

Both operations register a stop-event subscription, a termination
subscription and a 10-second timer, then invoke their action, and
settle exactly once behind a shared `resolved` flag. The asynchronous
firing order is modelled as a list of `RaceEvent`s folded through the
handler step function; the machine state is `none` while unresolved
and `some outcome` once settled (after which every handler returns
immediately, which is also what the disposed subscriptions enforce).

The host debugger is the function from the `threadId` DAP argument of
a `stackTrace` request to the full frame list of that thread; a
request with `startFrame`/`levels` returns the corresponding slice,
per the DAP contract of the (out-of-scope) host. -/

/-- One frame of a DAP `stackTrace` response. `sourcePath`/`sourceName`
model `source?.path` and `source?.name` (absent source means both are
`none`). -/
structure DapFrame where
  id : Nat
  name : String
  sourcePath : Option String
  sourceName : Option String
  line : Nat
  column : Nat
deriving DecidableEq, Repr

/-- The host debugger interface: full stack frames per `threadId`
argument (which the code can send as undefined). -/
def DapHost := Option Nat → List DapFrame

/-- A DAP `stackTrace` request with `startFrame` and `levels`. -/
def stackTraceRequest (host : DapHost) (threadId : Option Nat)
    (startFrame levels : Nat) : List DapFrame :=
  ((host threadId).drop startFrame).take levels

/-- One frame of a `StoppedState` stack trace. -/
structure Frame where
  id : Nat
  name : String
  file : String
  line : Nat
  column : Nat
deriving DecidableEq, Repr

/-- `f.source?.path || f.source?.name || '<unknown>'`. -/
def frameFile (f : DapFrame) : String :=
  jsOrStr f.sourcePath (jsOrStr f.sourceName "<unknown>")

/-- The frame mapping of `gatherStoppedState`. -/
def toFrame (f : DapFrame) : Frame :=
  { id := f.id, name := f.name, file := frameFile f, line := f.line,
    column := f.column }

/-- The state snapshot built after a stop event. -/
structure StoppedState where
  file : String
  line : Nat
  column : Nat
  stackTrace : List Frame
deriving DecidableEq, Repr

/-- `DebugServer.gatherStoppedState`: request the top 20 stack frames
of the thread and build the snapshot from them; throws when the host
reports no frames. -/
def gatherStoppedState (host : DapHost) (threadId : Option Nat) :
    Except String StoppedState :=
  match stackTraceRequest host threadId 0 20 with
  | [] => .error "No stack frames available"
  | topFrame :: rest =>
    .ok { file := frameFile topFrame, line := topFrame.line,
          column := topFrame.column,
          stackTrace := (topFrame :: rest).map toFrame }

/-- The body of a DAP stopped event. -/
structure StoppedBody where
  threadId : Option Nat
  reason : Option String
  description : Option String
  text : Option String
deriving DecidableEq, Repr

/-- `body?.threadId ?? fallbackThreadId`. -/
def coalesceThreadId (body : StoppedBody) (fallbackThreadId : Option Nat) :
    Option Nat :=
  match body.threadId with
  | some t => some t
  | none => fallbackThreadId

/-- Outcome of `executeAndWaitForStop`. -/
inductive ExecOutcome where
  | stopped (state : StoppedState)
      (stopReason description exceptionText : Option String)
  | notStopped (reason : String)
deriving DecidableEq, Repr

/-- An asynchronous source firing during the race: a DAP stopped event
from some session, the termination of some session, the 10-second
timer, or the rejection of the invoked action. -/
inductive RaceEvent where
  | stoppedEvt (sessionId : Nat) (body : StoppedBody)
  | terminatedEvt (sessionId : Nat)
  | timerFired
  | executeFailed (msg : String)
deriving DecidableEq, Repr

/-- The stopped-event handler of `executeAndWaitForStop` once it has
claimed the race: gather the state for the reported (or fallback)
thread, mapping a gathering failure to a distinct failure outcome. -/
def stoppedOutcome (host : DapHost) (fallbackThreadId : Option Nat)
    (body : StoppedBody) : ExecOutcome :=
  match gatherStoppedState host (coalesceThreadId body fallbackThreadId) with
  | .ok state => .stopped state body.reason body.description body.text
  | .error e => .notStopped ("Stopped but failed to get state: " ++ e)

/-- The outcome a single race source produces when it is the first to
fire. -/
def eventOutcome (host : DapHost) (fallbackThreadId : Option Nat) :
    RaceEvent → ExecOutcome
  | .stoppedEvt _ body => stoppedOutcome host fallbackThreadId body
  | .terminatedEvt _ => .notStopped "Debug session terminated"
  | .timerFired => .notStopped "Timed out waiting for program to stop (10s)"
  | .executeFailed msg => .notStopped ("Execution failed: " ++ msg)

/-- Whether a firing source settles the race of
`executeAndWaitForStop(session, ...)`: stop and termination events are
filtered to the given session, the timer and an action failure always
settle. -/
def relevantEvent (sessionId : Nat) : RaceEvent → Bool
  | .stoppedEvt sid _ => sid == sessionId
  | .terminatedEvt sid => sid == sessionId
  | .timerFired => true
  | .executeFailed _ => true

/-- One handler activation of `executeAndWaitForStop`: every handler
first checks the `resolved` guard, and the stop/termination handlers
additionally check the session identity. -/
def executeAndWaitForStopStep (host : DapHost) (sessionId : Nat)
    (fallbackThreadId : Option Nat) (st : Option ExecOutcome) (e : RaceEvent) :
    Option ExecOutcome :=
  match st with
  | some o => some o
  | none =>
    match e with
    | .stoppedEvt sid body =>
      if sid = sessionId then some (stoppedOutcome host fallbackThreadId body)
      else none
    | .terminatedEvt sid =>
      if sid = sessionId then some (.notStopped "Debug session terminated")
      else none
    | .timerFired => some (.notStopped "Timed out waiting for program to stop (10s)")
    | .executeFailed msg => some (.notStopped ("Execution failed: " ++ msg))

/-- The race run from an arbitrary machine state over a firing
sequence. -/
def executeAndWaitForStopFrom (host : DapHost) (sessionId : Nat)
    (fallbackThreadId : Option Nat) (st : Option ExecOutcome)
    (events : List RaceEvent) : Option ExecOutcome :=
  events.foldl (executeAndWaitForStopStep host sessionId fallbackThreadId) st

/-- `DebugServer.executeAndWaitForStop`: the race run from the
unresolved state; `none` means no source ever fired (which the
10-second timer precludes in real time). -/
def executeAndWaitForStop (host : DapHost) (sessionId : Nat)
    (fallbackThreadId : Option Nat) (events : List RaceEvent) :
    Option ExecOutcome :=
  executeAndWaitForStopFrom host sessionId fallbackThreadId none events

/-! ## `DebugServer.waitForLaunchResult`

The launch variant of the race: same three sources, but the stop and
termination subscriptions perform no session check at all, the stopped
handler uses only the threadId of the event body (no fallback), and
each source resolves with a JSON response object rather than an
`ExecOutcome`. -/

/-- The JSON response object a launch resolves with. Fields that the
code never sets, or sets from a falsy value, are `none` (and absent
from the serialization). -/
structure LaunchResponse where
  message : String
  reason : Option String
  state : Option StoppedState
  description : Option String
  exceptionText : Option String
deriving DecidableEq, Repr

/-- A `LaunchResponse` that carries only a message. -/
def messageOnly (message : String) : LaunchResponse :=
  { message := message, reason := none, state := none, description := none,
    exceptionText := none }

/-- The stopped-event handler of `waitForLaunchResult` once it has
claimed the race: a body without threadId resolves with a status
message and no host query; otherwise the gathered state is spread into
the response, with the reason suffix and the conditionally added
description / exceptionText fields. -/
def launchEventResponse (host : DapHost) (body : StoppedBody) : LaunchResponse :=
  match body.threadId with
  | none => messageOnly "Debug session started but no thread ID in stopped event"
  | some tid =>
    match gatherStoppedState host (some tid) with
    | .ok state =>
      let reasonSuffix :=
        if truthyStr body.reason then " (" ++ body.reason.getD "" ++ ")" else ""
      { message := "Debug session started - stopped at " ++ state.file ++ ":"
          ++ toString state.line ++ reasonSuffix,
        reason := body.reason,
        state := some state,
        description := if truthyStr body.description then body.description else none,
        exceptionText := if truthyStr body.text then body.text else none }
    | .error e =>
      messageOnly ("Debug session started - stopped but failed to get state: " ++ e)

/-- One handler activation of `waitForLaunchResult`: the `resolved`
guard, but no session filtering on the stop or termination sources. -/
def waitForLaunchResultStep (host : DapHost) (st : Option LaunchResponse)
    (e : RaceEvent) : Option LaunchResponse :=
  match st with
  | some r => some r
  | none =>
    match e with
    | .stoppedEvt _ body => some (launchEventResponse host body)
    | .terminatedEvt _ => some (messageOnly "Debug session terminated")
    | .timerFired => some (messageOnly "Debug session started (program is running)")
    | .executeFailed msg =>
      some (messageOnly ("Failed to start debug session: " ++ msg))

/-- `DebugServer.waitForLaunchResult`: the launch race run from the
unresolved state over a firing sequence. -/
def waitForLaunchResult (host : DapHost) (events : List RaceEvent) :
    Option LaunchResponse :=
  events.foldl (waitForLaunchResultStep host) none

/-! ## Theorems -/

/-- Claim C4: for every breakpoint store and every `remove {file, line}`
call, exactly those source breakpoints whose file path equals the
given file and whose 0-based stored line equals the given line minus
one are removed (breakpoints at the same line in a different file, and
in the same file at a different line, are unchanged); the call returns
the count of removed breakpoints, and 0 with a `No breakpoint found`
message, without mutating the store, when none match. -/
theorem handleBreakpoints_remove_exact (store : List VsBreakpoint)
    (file : String) (line : Nat) (hf : file ≠ "") (hl : line ≠ 0) :
    (∀ bp, bp ∈ (handleBreakpoints store
        { action := "remove", file := some file, line := some line }).1 ↔
      bp ∈ store ∧ matchesRemoveTarget file line bp = false)
    ∧ ((store.filter (matchesRemoveTarget file line)).length ≠ 0 →
        handleBreakpoints store
            { action := "remove", file := some file, line := some line }
          = (store.filter (fun bp => ! matchesRemoveTarget file line bp),
             .removeOk ("Removed "
                 ++ toString (store.filter (matchesRemoveTarget file line)).length
                 ++ " breakpoint(s) at " ++ file ++ ":" ++ toString line)
               (store.filter (matchesRemoveTarget file line)).length))
    ∧ ((store.filter (matchesRemoveTarget file line)).length = 0 →
        handleBreakpoints store
            { action := "remove", file := some file, line := some line }
          = (store,
             .removeOk ("No breakpoint found at " ++ file ++ ":"
                 ++ toString line) 0)) := by
  have hts : truthyStr (some file) = true := by
    simp [truthyStr, hf]
  have htl : truthyNat (some line) = true := by
    simp [truthyNat, hl]
  by_cases h : (store.filter (matchesRemoveTarget file line)).length = 0
  · have hall : ∀ b ∈ store, matchesRemoveTarget file line b = false := by
      intro b hb
      by_contra hcon
      have hmem : b ∈ store.filter (matchesRemoveTarget file line) :=
        List.mem_filter.mpr ⟨hb, by simpa using hcon⟩
      rw [List.length_eq_zero.mp h] at hmem
      simp at hmem
    have hred : handleBreakpoints store
        { action := "remove", file := some file, line := some line }
        = (store,
           .removeOk ("No breakpoint found at " ++ file ++ ":"
               ++ toString line) 0) := by
      simp [handleBreakpoints, hts, htl, h]
    refine ⟨?_, ?_, ?_⟩
    · intro bp
      rw [hred]
      exact ⟨fun hbp => ⟨hbp, hall bp hbp⟩, fun hbp => hbp.1⟩
    · intro hne
      exact absurd h hne
    · intro _
      exact hred
  · have hred : handleBreakpoints store
        { action := "remove", file := some file, line := some line }
        = (store.filter (fun bp => ! matchesRemoveTarget file line bp),
           .removeOk ("Removed "
               ++ toString (store.filter (matchesRemoveTarget file line)).length
               ++ " breakpoint(s) at " ++ file ++ ":" ++ toString line)
             (store.filter (matchesRemoveTarget file line)).length) := by
      simp [handleBreakpoints, hts, htl, h]
    refine ⟨?_, ?_, ?_⟩
    · intro bp
      rw [hred]
      simp [List.mem_filter]
    · intro _
      exact hred
    · intro h0
      exact absurd h0 h

/-- Claim C4 witness: a concrete store with one matching and two
non-matching breakpoints. -/
theorem handleBreakpoints_remove_exact_witness :
    ("/a.js" : String) ≠ "" ∧ (7 : Nat) ≠ 0 ∧
    (∀ bp, bp ∈ (handleBreakpoints
        [VsBreakpoint.source ⟨"/a.js", 6, true, none, none, none⟩,
         VsBreakpoint.source ⟨"/b.js", 6, true, none, none, none⟩,
         VsBreakpoint.source ⟨"/a.js", 2, true, none, none, none⟩]
        { action := "remove", file := some "/a.js", line := some 7 }).1 ↔
      bp ∈ [VsBreakpoint.source ⟨"/a.js", 6, true, none, none, none⟩,
         VsBreakpoint.source ⟨"/b.js", 6, true, none, none, none⟩,
         VsBreakpoint.source ⟨"/a.js", 2, true, none, none, none⟩]
        ∧ matchesRemoveTarget "/a.js" 7 bp = false) := by
  refine ⟨by decide, by decide, ?_⟩
  exact (handleBreakpoints_remove_exact
    [VsBreakpoint.source ⟨"/a.js", 6, true, none, none, none⟩,
     VsBreakpoint.source ⟨"/b.js", 6, true, none, none, none⟩,
     VsBreakpoint.source ⟨"/a.js", 2, true, none, none, none⟩]
    "/a.js" 7 (by decide) (by decide)).1

/-- Claim C5: for every valid `set {file, line, condition?,
hitCondition?, logMessage?}` call (file given, line a positive 1-based
integer), a subsequent `list` call yields an entry with exactly that
file, that same 1-based line, `enabled = true` and the optional fields
echoed unchanged; and `list` on an empty breakpoint store returns an
empty sequence with count 0. -/
theorem handleBreakpoints_set_list_roundtrip (store : List VsBreakpoint)
    (file : String) (line : Nat) (cond hit log : Option String)
    (hf : file ≠ "") (hl : 0 < line) :
    (∃ entries,
      (handleBreakpoints
          (handleBreakpoints store
            { action := "set", file := some file, line := some line,
              condition := cond, hitCondition := hit, logMessage := log }).1
          { action := "list" }).2
        = .listOk entries entries.length
      ∧ ({ file := file, line := line, enabled := true, condition := cond,
           hitCondition := hit, logMessage := log : BpListEntry } ∈ entries))
    ∧ handleBreakpoints ([] : List VsBreakpoint) { action := "list" }
        = ([], .listOk [] 0) := by
  have hts : truthyStr (some file) = true := by
    simp [truthyStr, hf]
  have htl : truthyNat (some line) = true := by
    simp [truthyNat, Nat.pos_iff_ne_zero.mp hl]
  have hset : (handleBreakpoints store
      { action := "set", file := some file, line := some line,
        condition := cond, hitCondition := hit, logMessage := log }).1
      = store ++ [.source
          { file := file, line := line - 1, enabled := true,
            condition := cond, hitCondition := hit, logMessage := log }] := by
    simp [handleBreakpoints, hts, htl]
  constructor
  · rw [hset]
    refine ⟨_, rfl, ?_⟩
    simp only [handleBreakpoints, List.filterMap_append]
    refine List.mem_append.mpr (Or.inr ?_)
    simp only [List.filterMap]
    have hline : line - 1 + 1 = line := Nat.succ_pred_eq_of_pos hl
    simp [hline]
  · rfl

/-- Claim C5 witness: a concrete set-then-list round trip on the empty
store. -/
theorem handleBreakpoints_set_list_roundtrip_witness :
    ("/app.js" : String) ≠ "" ∧ (0 : Nat) < 7 ∧
    (∃ entries,
      (handleBreakpoints
          (handleBreakpoints ([] : List VsBreakpoint)
            { action := "set", file := some "/app.js", line := some 7,
              condition := some "x > 1", hitCondition := none,
              logMessage := none }).1
          { action := "list" }).2
        = .listOk entries entries.length
      ∧ ({ file := "/app.js", line := 7, enabled := true,
           condition := some "x > 1", hitCondition := none,
           logMessage := none : BpListEntry } ∈ entries)) := by
  refine ⟨by decide, by decide, ?_⟩
  exact (handleBreakpoints_set_list_roundtrip [] "/app.js" 7 (some "x > 1")
    none none (by decide) (by decide)).1

/-- Claim C10: for both the `set` and `remove` breakpoint actions, a
line argument equal to 0 is treated exactly like an omitted line
(truthiness-based validation): the call fails with the corresponding
`line is required` error before touching the breakpoint store, so no
breakpoint can ever be created or removed with line value 0. -/
theorem handleBreakpoints_line_zero_rejected (store : List VsBreakpoint)
    (file : String) (cond hit log : Option String) (hf : file ≠ "") :
    handleBreakpoints store
        { action := "set", file := some file, line := some 0,
          condition := cond, hitCondition := hit, logMessage := log }
      = (store, .error "line is required for set action")
    ∧ handleBreakpoints store
        { action := "set", file := some file, line := none,
          condition := cond, hitCondition := hit, logMessage := log }
      = (store, .error "line is required for set action")
    ∧ handleBreakpoints store
        { action := "remove", file := some file, line := some 0 }
      = (store, .error "line is required for remove action")
    ∧ handleBreakpoints store
        { action := "remove", file := some file, line := none }
      = (store, .error "line is required for remove action") := by
  have hts : truthyStr (some file) = true := by
    simp [truthyStr, hf]
  refine ⟨?_, ?_, ?_, ?_⟩ <;> simp [handleBreakpoints, hts, truthyNat]

/-- Claim C10 witness: line 0 and omitted line on a concrete store. -/
theorem handleBreakpoints_line_zero_rejected_witness :
    ("/app.js" : String) ≠ "" ∧
    handleBreakpoints [VsBreakpoint.source ⟨"/app.js", 4, true, none, none, none⟩]
        { action := "set", file := some "/app.js", line := some 0 }
      = ([VsBreakpoint.source ⟨"/app.js", 4, true, none, none, none⟩],
         .error "line is required for set action") := by
  refine ⟨by decide, ?_⟩
  exact (handleBreakpoints_line_zero_rejected
    [VsBreakpoint.source ⟨"/app.js", 4, true, none, none, none⟩]
    "/app.js" none none none (by decide)).1

/-- Once the race of `executeAndWaitForStop` is settled, every later
firing leaves the outcome unchanged. -/
lemma execFrom_resolved (host : DapHost) (sessionId : Nat)
    (fallbackThreadId : Option Nat) (o : ExecOutcome) :
    ∀ events, executeAndWaitForStopFrom host sessionId fallbackThreadId
      (some o) events = some o := by
  intro events
  induction events with
  | nil => rfl
  | cons e es ih =>
    simpa [executeAndWaitForStopFrom, executeAndWaitForStopStep] using ih

/-- The `foldl` reading of `execFrom_resolved`. -/
lemma execFoldl_resolved (host : DapHost) (sessionId : Nat)
    (fallbackThreadId : Option Nat) (o : ExecOutcome) (events : List RaceEvent) :
    List.foldl (executeAndWaitForStopStep host sessionId fallbackThreadId)
      (some o) events = some o :=
  execFrom_resolved host sessionId fallbackThreadId o events

/-- The race of `executeAndWaitForStop` resolves with the outcome of
the first relevant firing. -/
lemma exec_run_eq_find (host : DapHost) (sessionId : Nat)
    (fallbackThreadId : Option Nat) :
    ∀ events, executeAndWaitForStop host sessionId fallbackThreadId events
      = (events.find? (relevantEvent sessionId)).map
          (eventOutcome host fallbackThreadId) := by
  intro events
  induction events with
  | nil => rfl
  | cons e es ih =>
    cases e with
    | stoppedEvt sid body =>
      by_cases h : sid = sessionId
      · subst h
        simp only [executeAndWaitForStop, executeAndWaitForStopFrom,
          List.foldl_cons, executeAndWaitForStopStep, if_pos rfl,
          if_true, execFoldl_resolved]
        simp [List.find?, relevantEvent, eventOutcome]
      · have hb : (sid == sessionId) = false := by
          simpa using h
        simp only [executeAndWaitForStop, executeAndWaitForStopFrom,
          List.foldl_cons, executeAndWaitForStopStep, if_neg h]
        rw [show List.find? (relevantEvent sessionId)
            (RaceEvent.stoppedEvt sid body :: es)
            = List.find? (relevantEvent sessionId) es from by
          simp [List.find?, relevantEvent, hb]]
        exact ih
    | terminatedEvt sid =>
      by_cases h : sid = sessionId
      · subst h
        simp only [executeAndWaitForStop, executeAndWaitForStopFrom,
          List.foldl_cons, executeAndWaitForStopStep, if_pos rfl,
          if_true, execFoldl_resolved]
        simp [List.find?, relevantEvent, eventOutcome]
      · have hb : (sid == sessionId) = false := by
          simpa using h
        simp only [executeAndWaitForStop, executeAndWaitForStopFrom,
          List.foldl_cons, executeAndWaitForStopStep, if_neg h]
        rw [show List.find? (relevantEvent sessionId)
            (RaceEvent.terminatedEvt sid :: es)
            = List.find? (relevantEvent sessionId) es from by
          simp [List.find?, relevantEvent, hb]]
        exact ih
    | timerFired =>
      simp only [executeAndWaitForStop, executeAndWaitForStopFrom,
        List.foldl_cons, executeAndWaitForStopStep, execFoldl_resolved]
      simp [List.find?, relevantEvent, eventOutcome]
    | executeFailed msg =>
      simp only [executeAndWaitForStop, executeAndWaitForStopFrom,
        List.foldl_cons, executeAndWaitForStopStep, execFoldl_resolved]
      simp [List.find?, relevantEvent, eventOutcome]

/-- Claim C1: for every invocation of `executeAndWaitForStop`, exactly
one outcome is ever produced: the first of the three sources (a stop
event for the session, session termination, the 10-second timer) to
fire resolves the operation, later firings are ignored (an
already-settled race is never changed), sources irrelevant to the
session do not resolve it, and a failure of the invoked action before
any source fires resolves the race once with a failure outcome whose
reason starts with `Execution failed`. -/
theorem executeAndWaitForStop_settles_once (host : DapHost) (sessionId : Nat)
    (fallbackThreadId : Option Nat) (events : List RaceEvent) :
    (∀ o, executeAndWaitForStopFrom host sessionId fallbackThreadId
        (some o) events = some o)
    ∧ executeAndWaitForStop host sessionId fallbackThreadId events
        = (events.find? (relevantEvent sessionId)).map
            (eventOutcome host fallbackThreadId)
    ∧ (∀ msg, eventOutcome host fallbackThreadId (.executeFailed msg)
        = .notStopped ("Execution failed: " ++ msg)) :=
  ⟨fun o => execFrom_resolved host sessionId fallbackThreadId o events,
   exec_run_eq_find host sessionId fallbackThreadId events,
   fun _ => rfl⟩

/-- A successful `gatherStoppedState` yields a snapshot whose stack is
non-empty, has at most 20 frames, and whose file/line/column are those
of its first frame. -/
lemma gatherStoppedState_ok_shape (host : DapHost) (threadId : Option Nat)
    (st : StoppedState) (h : gatherStoppedState host threadId = .ok st) :
    st.stackTrace ≠ [] ∧ st.stackTrace.length ≤ 20 ∧
    ∃ top rest2, st.stackTrace = top :: rest2 ∧ st.file = top.file ∧
      st.line = top.line ∧ st.column = top.column := by
  unfold gatherStoppedState at h
  cases hreq : stackTraceRequest host threadId 0 20 with
  | nil =>
    rw [hreq] at h
    simp at h
  | cons topFrame rest =>
    rw [hreq] at h
    injection h with h2
    subst h2
    refine ⟨by simp, ?_, ?_⟩
    · have hlen : (topFrame :: rest).length ≤ 20 := by
        rw [← hreq]
        exact List.length_take_le 20 _
      simpa using hlen
    · exact ⟨toFrame topFrame, rest.map toFrame, by simp, rfl, rfl, rfl⟩

/-- Claim C8: every `Stopped` outcome produced by
`executeAndWaitForStop` carries a `StoppedState` whose `stackTrace` is
non-empty with at most 20 frames and whose file, line and column equal
those of the first frame; and when the host reports zero stack frames
after a stop event, the stop handler instead resolves with a
non-stopped outcome whose reason begins with
`Stopped but failed to get state`. -/
theorem executeAndWaitForStop_stopped_state_shape :
    (∀ (host : DapHost) (sessionId : Nat) (fallbackThreadId : Option Nat)
        (events : List RaceEvent) (st : StoppedState)
        (r d t : Option String),
      executeAndWaitForStop host sessionId fallbackThreadId events
          = some (.stopped st r d t) →
      st.stackTrace ≠ [] ∧ st.stackTrace.length ≤ 20 ∧
      ∃ top rest2, st.stackTrace = top :: rest2 ∧ st.file = top.file ∧
        st.line = top.line ∧ st.column = top.column)
    ∧ (∀ (host : DapHost) (fallbackThreadId : Option Nat) (body : StoppedBody),
      host (coalesceThreadId body fallbackThreadId) = [] →
      stoppedOutcome host fallbackThreadId body
        = .notStopped
            ("Stopped but failed to get state: No stack frames available")) := by
  constructor
  · intro host sessionId fallbackThreadId events st r d t h
    rw [exec_run_eq_find] at h
    obtain ⟨e, hfind, hout⟩ := Option.map_eq_some'.mp h
    cases e with
    | stoppedEvt sid body =>
      simp only [eventOutcome, stoppedOutcome] at hout
      cases hg : gatherStoppedState host (coalesceThreadId body fallbackThreadId) with
      | error e2 =>
        rw [hg] at hout
        simp at hout
      | ok st2 =>
        rw [hg] at hout
        simp only [ExecOutcome.stopped.injEq] at hout
        obtain ⟨hst, -, -, -⟩ := hout
        subst hst
        exact gatherStoppedState_ok_shape host _ _ hg
    | terminatedEvt sid => simp [eventOutcome] at hout
    | timerFired => simp [eventOutcome] at hout
    | executeFailed msg => simp [eventOutcome] at hout
  · intro host fallbackThreadId body h
    simp [stoppedOutcome, gatherStoppedState, stackTraceRequest, h]

/-- Claim C8 witness: a one-frame host produces a stopped outcome of
the required shape, and an empty-stack host produces the failure
outcome. -/
theorem executeAndWaitForStop_stopped_state_shape_witness :
    executeAndWaitForStop (fun _ => [⟨1, "main", some "/app.js", none, 7, 1⟩])
        5 none [.stoppedEvt 5 ⟨some 1, some "breakpoint", none, none⟩]
      = some (.stopped ⟨"/app.js", 7, 1, [⟨1, "main", "/app.js", 7, 1⟩]⟩
          (some "breakpoint") none none)
    ∧ (({ file := "/app.js", line := 7, column := 1,
          stackTrace := [⟨1, "main", "/app.js", 7, 1⟩] } : StoppedState).stackTrace
          ≠ [])
    ∧ ((fun _ => []) : DapHost)
        (coalesceThreadId ⟨some 1, some "breakpoint", none, none⟩ none) = []
    ∧ stoppedOutcome ((fun _ => []) : DapHost) none
        ⟨some 1, some "breakpoint", none, none⟩
      = .notStopped "Stopped but failed to get state: No stack frames available" := by
  have h1 : executeAndWaitForStop
      (fun _ => [⟨1, "main", some "/app.js", none, 7, 1⟩])
      5 none [.stoppedEvt 5 ⟨some 1, some "breakpoint", none, none⟩]
      = some (.stopped ⟨"/app.js", 7, 1, [⟨1, "main", "/app.js", 7, 1⟩]⟩
          (some "breakpoint") none none) := by
    rfl
  refine ⟨h1, ?_, rfl, ?_⟩
  · exact (executeAndWaitForStop_stopped_state_shape.1
      (fun _ => [⟨1, "main", some "/app.js", none, 7, 1⟩]) 5 none
      [.stoppedEvt 5 ⟨some 1, some "breakpoint", none, none⟩]
      ⟨"/app.js", 7, 1, [⟨1, "main", "/app.js", 7, 1⟩]⟩
      (some "breakpoint") none none h1).1
  · exact executeAndWaitForStop_stopped_state_shape.2
      ((fun _ => []) : DapHost) none ⟨some 1, some "breakpoint", none, none⟩ rfl

/-- Once the launch race is settled, every later firing leaves the
response unchanged. -/
lemma launchFoldl_resolved (host : DapHost) (r : LaunchResponse) :
    ∀ events, List.foldl (waitForLaunchResultStep host) (some r) events
      = some r := by
  intro events
  induction events with
  | nil => rfl
  | cons e es ih =>
    simpa [waitForLaunchResultStep] using ih

/-- Claim C9: the stop-event and termination subscriptions of
`waitForLaunchResult` are not filtered by session: the first stopped
event from any session resolves the launch with that event's response,
the termination of any session resolves it with
`Debug session terminated`, and a stopped event carrying no threadId
resolves it with a fixed status message whose value does not depend on
the host (no host query). -/
theorem waitForLaunchResult_unfiltered :
    (∀ (host : DapHost) (sessionId : Nat) (body : StoppedBody)
        (rest : List RaceEvent),
      waitForLaunchResult host (.stoppedEvt sessionId body :: rest)
        = some (launchEventResponse host body))
    ∧ (∀ (host : DapHost) (sessionId : Nat) (rest : List RaceEvent),
      waitForLaunchResult host (.terminatedEvt sessionId :: rest)
        = some (messageOnly "Debug session terminated"))
    ∧ (∀ (host : DapHost) (reason descr text : Option String),
      launchEventResponse host
          { threadId := none, reason := reason, description := descr,
            text := text }
        = messageOnly
            "Debug session started but no thread ID in stopped event") := by
  refine ⟨?_, ?_, ?_⟩
  · intro host sessionId body rest
    simp only [waitForLaunchResult, List.foldl_cons, waitForLaunchResultStep]
    exact launchFoldl_resolved host _ rest
  · intro host sessionId rest
    simp only [waitForLaunchResult, List.foldl_cons, waitForLaunchResultStep]
    exact launchFoldl_resolved host _ rest
  · intro host reason descr text
    rfl

/-- Claim C6 counterexample: a `continue` call with a granularity
argument and no explicit thread id is dispatched onto the high-level
workbench command, not the low-level DAP request path that the claim
requires for every action when a granularity is supplied. -/
theorem dispatchExecution_continue_granularity_counterexample :
    dispatchExecution .cont none (some "line") 1
        = .highLevel "workbench.action.debug.continue"
    ∧ (dispatchExecution .cont none (some "line") 1).isLowLevel = false := by
  decide

/-- Claim C6 as amended: a continue/step action goes to the low-level
DAP request path exactly when the caller supplied an explicit thread
id, or supplied a (truthy) stepping granularity on a step action;
`continue` ignores granularity for this choice. On the low-level path
the mapped DAP command is sent with the resolved thread id, plus the
granularity for step actions; otherwise the mapped high-level
workbench command is used. -/
theorem dispatchExecution_path_choice (action : StepLikeAction)
    (gran : Option String) (rtid : Nat) :
    ((dispatchExecution action none gran rtid).isLowLevel
        = (truthyStr gran && action != .cont))
    ∧ (∀ t, dispatchExecution action (some t) gran rtid
        = .lowLevel (dapCommandMap action)
            { threadId := rtid,
              granularity :=
                if truthyStr gran && action != .cont then gran else none })
    ∧ (action ≠ .cont → truthyStr gran = true →
        dispatchExecution action none gran rtid
          = .lowLevel (dapCommandMap action)
              { threadId := rtid, granularity := gran })
    ∧ (dispatchExecution .cont none gran rtid
        = .highLevel "workbench.action.debug.continue")
    ∧ (truthyStr gran = false →
        dispatchExecution action none gran rtid
          = .highLevel (vscodeCommandMap action)) := by
  refine ⟨?_, ?_, ?_, ?_, ?_⟩
  · by_cases h : (truthyStr gran && action != .cont) = true
    · simp [dispatchExecution, useCustomRequest, h, ExecPath.isLowLevel]
    · simp only [Bool.not_eq_true] at h
      simp [dispatchExecution, useCustomRequest, h, ExecPath.isLowLevel]
  · intro t
    simp [dispatchExecution, useCustomRequest]
  · intro ha hg
    have hb : (action != .cont) = true := by
      simpa using ha
    simp [dispatchExecution, useCustomRequest, hg, hb]
  · simp [dispatchExecution, useCustomRequest, vscodeCommandMap]
  · intro hg
    simp [dispatchExecution, useCustomRequest, hg]

/-- Claim C6 amended witness: a `stepOver` with granularity `line` and
no thread id goes to the low-level `next` request carrying the
granularity. -/
theorem dispatchExecution_path_choice_witness :
    StepLikeAction.stepOver ≠ StepLikeAction.cont ∧
    truthyStr (some "line") = true ∧
    dispatchExecution .stepOver none (some "line") 3
      = .lowLevel "next" { threadId := 3, granularity := some "line" } := by
  refine ⟨by decide, by decide, ?_⟩
  exact (dispatchExecution_path_choice .stepOver (some "line") 3).2.2.1
    (by decide) (by decide)

/-- Claim C7 counterexample: a parseable body whose `type` is neither
`listTools` nor `callTool` is answered with `{success: true}` and no
data field, not with the failure envelope the claim requires for every
malformed body. -/
theorem tcpHandle_unknown_type_counterexample :
    tcpHandle throwingToolHandler
        (.ok { type := "bogus", tool := none })
      = { success := true, data := none, error := none } := by
  rfl

/-- Claim C7 as amended: every request is answered with exactly one
`{success, data?, error?}` envelope — an unparseable body with a
failure envelope, `listTools` with the tool list, `callTool` with the
tool result on success and a failure envelope when the tool call
throws (including the unknown-tool error, which enumerates nothing but
names the tool); a body whose `type` is unrecognized is answered with
`{success: true}` and no data field. -/
theorem tcpHandle_envelope (h : TcpRequest → Except String String) :
    (∀ e, tcpHandle h (.error e)
      = { success := false, data := none, error := some e })
    ∧ (∀ req, req.type = "listTools" → tcpHandle h (.ok req)
      = { success := true, data := some .toolsList, error := none })
    ∧ (∀ req v, req.type = "callTool" → h req = .ok v → tcpHandle h (.ok req)
      = { success := true, data := some (.toolResult v), error := none })
    ∧ (∀ req e, req.type = "callTool" → h req = .error e → tcpHandle h (.ok req)
      = { success := false, data := none, error := some e })
    ∧ (∀ req, req.type ≠ "listTools" → req.type ≠ "callTool" →
        tcpHandle h (.ok req)
      = { success := true, data := none, error := none })
    ∧ (∀ er bp ins t, t ≠ "debug_execute" → t ≠ "debug_breakpoints" →
        t ≠ "debug_inspect" →
        handleCommand er bp ins { type := "callTool", tool := some t }
      = .error ("Unknown tool: " ++ t)) := by
  refine ⟨?_, ?_, ?_, ?_, ?_, ?_⟩
  · intro e
    rfl
  · intro req hty
    simp [tcpHandle, hty]
  · intro req v hty hcall
    simp [tcpHandle, hty, hcall]
  · intro req e hty hcall
    simp [tcpHandle, hty, hcall]
  · intro req h1 h2
    simp [tcpHandle, h1, h2]
  · intro er bp ins t h1 h2 h3
    simp [handleCommand, h1, h2, h3]

/-- Claim C7 amended witness: a failing tool call to an unknown tool
through the envelope, at concrete inputs. -/
theorem tcpHandle_envelope_witness :
    ("nope" : String) ≠ "debug_execute" ∧
    handleCommand (.ok "a") (.ok "b") (.ok "c")
        { type := "callTool", tool := some "nope" }
      = .error "Unknown tool: nope" ∧
    tcpHandle throwingToolHandler (.ok { type := "callTool", tool := some "x" })
      = { success := false, data := none,
          error := some "handler should not be reached" } := by
  refine ⟨by decide, ?_, ?_⟩
  · exact (tcpHandle_envelope throwingToolHandler).2.2.2.2.2
      (.ok "a") (.ok "b") (.ok "c") "nope"
      (by decide) (by decide) (by decide)
  · exact (tcpHandle_envelope throwingToolHandler).2.2.2.1
      { type := "callTool", tool := some "x" }
      "handler should not be reached" rfl rfl

/-- Claim C2: for every launch call — a (truthy) configuration name
matching no configuration fails with a message listing the available
names; no name with exactly one configuration auto-selects and starts
it (when no session is active); no name with more than one
configuration returns the list of names without starting anything;
zero configurations fail with the no-configurations error regardless
of any other state, before any host debugger API is reached (`start`
is the only outcome that invokes the host). -/
theorem handleLaunch_selection (root nm : String)
    (configs : List LaunchCfg) (noDebug : Option Bool) (active : Bool) :
    (configs ≠ [] → nm ≠ "" → (∀ c ∈ configs, c.name ≠ nm) →
      handleLaunch (some root) (some configs) (some nm) noDebug active
        = .error ("Configuration \"" ++ nm ++ "\" not found. Available: "
            ++ String.intercalate ", " (configs.map (fun c => c.name))))
    ∧ (∀ c nmOpt, truthyStr nmOpt = false →
        handleLaunch (some root) (some [c]) nmOpt noDebug false
          = .start (launchPreparedConfig root c noDebug))
    ∧ (∀ nmOpt, truthyStr nmOpt = false → 2 ≤ configs.length →
        handleLaunch (some root) (some configs) nmOpt noDebug active
          = .multipleConfigs
              "Multiple debug configurations available. Specify configurationName."
              (configs.map (fun c => c.name)))
    ∧ (∀ nmOpt,
        handleLaunch (some root) (some []) nmOpt noDebug active
          = .error "No debug configurations found in launch.json"
        ∧ handleLaunch (some root) none nmOpt noDebug active
          = .error "No debug configurations found in launch.json") := by
  refine ⟨?_, ?_, ?_, ?_⟩
  · intro hne hnm hall
    obtain ⟨c0, rest, rfl⟩ : ∃ c0 rest, configs = c0 :: rest := by
      cases configs with
      | nil => exact absurd rfl hne
      | cons a l => exact ⟨a, l, rfl⟩
    have hts : truthyStr (some nm) = true := by
      simp [truthyStr, hnm]
    have hfind : (c0 :: rest).find? (fun c => c.name == nm) = none := by
      apply List.find?_eq_none.mpr
      intro c hc
      simpa using hall c hc
    simp [handleLaunch, hts, hfind]
  · intro c nmOpt hnt
    simp [handleLaunch, hnt]
  · intro nmOpt hnt hlen
    obtain ⟨c0, c1, rest, rfl⟩ : ∃ c0 c1 rest, configs = c0 :: c1 :: rest := by
      cases configs with
      | nil => simp at hlen
      | cons a l =>
        cases l with
        | nil => simp at hlen
        | cons b l2 => exact ⟨a, b, l2, rfl⟩
    simp [handleLaunch, hnt]
  · intro nmOpt
    exact ⟨rfl, rfl⟩

/-- Claim C2 witness: a two-configuration workspace with an unknown
name, a one-configuration auto-select, the multiple-configuration
listing, and the empty-configuration error, at concrete inputs. -/
theorem handleLaunch_selection_witness :
    ([⟨"A", []⟩, ⟨"B", []⟩] : List LaunchCfg) ≠ [] ∧ ("C" : String) ≠ "" ∧
    handleLaunch (some "/w") (some [⟨"A", []⟩, ⟨"B", []⟩]) (some "C") none false
      = .error "Configuration \"C\" not found. Available: A, B" ∧
    truthyStr none = false ∧
    handleLaunch (some "/w") (some [(⟨"Run", []⟩ : LaunchCfg)]) none none false
      = .start (launchPreparedConfig "/w" ⟨"Run", []⟩ none) ∧
    handleLaunch (some "/w") (some [⟨"A", []⟩, ⟨"B", []⟩]) none none false
      = .multipleConfigs
          "Multiple debug configurations available. Specify configurationName."
          ["A", "B"] ∧
    handleLaunch (some "/w") (some []) none none true
      = .error "No debug configurations found in launch.json" := by
  have h1 := (handleLaunch_selection "/w" "C" [⟨"A", []⟩, ⟨"B", []⟩] none false).1
    (by simp) (by decide)
    (by
      intro c hc
      simp at hc
      rcases hc with h | h <;> rw [h] <;> decide)
  have h2 := (handleLaunch_selection "/w" "" ([] : List LaunchCfg) none false).2.1
    (⟨"Run", []⟩ : LaunchCfg) none rfl
  have h3 := (handleLaunch_selection "/w" "" [⟨"A", []⟩, ⟨"B", []⟩] none false).2.2.1
    none rfl (by decide)
  have h4 := ((handleLaunch_selection "/w" "" ([] : List LaunchCfg) none true).2.2.2
    none).1
  exact ⟨by simp, by decide, by simpa using h1, rfl, h2, by simpa using h3, h4⟩

/-- One registry-scan step either keeps the accumulator or takes the
current entry, which is then a matching numeric entry. -/
lemma portScanStep_cases (cwd : String) (acc : String × Option Int)
    (e : String × JVal) :
    portScanStep cwd acc e = acc ∨
    ∃ p, e.2 = JVal.num p ∧ cwdMatches cwd e.1 = true ∧
      portScanStep cwd acc e = (e.1, some p) := by
  obtain ⟨wp, v⟩ := e
  cases v with
  | num p =>
    by_cases h : cwdMatches cwd wp = true ∧ acc.1.length < wp.length
    · right
      exact ⟨p, rfl, h.1, by simp [portScanStep, h]⟩
    · left
      simp only [portScanStep]
      rw [if_neg]
      simpa using h
  | str s => left; rfl
  | boolean b => left; rfl
  | nul => left; rfl
  | arr elems => left; rfl
  | obj fields => left; rfl

/-- One registry-scan step never shortens the best key. -/
lemma portScanStep_mono (cwd : String) (acc : String × Option Int)
    (e : String × JVal) :
    acc.1.length ≤ (portScanStep cwd acc e).1.length := by
  obtain ⟨wp, v⟩ := e
  cases v with
  | num p =>
    by_cases h : cwdMatches cwd wp = true ∧ acc.1.length < wp.length
    · simp only [portScanStep]
      rw [if_pos h]
      exact Nat.le_of_lt h.2
    · simp only [portScanStep]
      rw [if_neg (by simpa using h)]
  | str s => exact Nat.le_refl _
  | boolean b => exact Nat.le_refl _
  | nul => exact Nat.le_refl _
  | arr elems => exact Nat.le_refl _
  | obj fields => exact Nat.le_refl _

/-- The registry scan either returns its starting accumulator or a
matching numeric entry of the list. -/
lemma portScan_cases (cwd : String) :
    ∀ (l : List (String × JVal)) (acc : String × Option Int),
      l.foldl (portScanStep cwd) acc = acc ∨
      ∃ wp p, (wp, JVal.num p) ∈ l ∧ cwdMatches cwd wp = true ∧
        l.foldl (portScanStep cwd) acc = (wp, some p) := by
  intro l
  induction l with
  | nil => intro acc; left; rfl
  | cons e es ih =>
    intro acc
    rw [List.foldl_cons]
    rcases portScanStep_cases cwd acc e with hstep | ⟨p, hv, hm, hstep⟩
    · rw [hstep]
      rcases ih acc with h | ⟨wp, p, hmem, hm, h⟩
      · left; exact h
      · right; exact ⟨wp, p, List.mem_cons_of_mem e hmem, hm, h⟩
    · rw [hstep]
      rcases ih (e.1, some p) with h | ⟨wp, p2, hmem, hm2, h⟩
      · right
        refine ⟨e.1, p, ?_, hm, h⟩
        have : e = (e.1, JVal.num p) := by
          obtain ⟨a, b⟩ := e
          simpa using hv
        rw [← this]
        exact List.mem_cons_self e es
      · right; exact ⟨wp, p2, List.mem_cons_of_mem e hmem, hm2, h⟩

/-- The registry scan never shortens the best key. -/
lemma portScan_mono (cwd : String) :
    ∀ (l : List (String × JVal)) (acc : String × Option Int),
      acc.1.length ≤ (l.foldl (portScanStep cwd) acc).1.length := by
  intro l
  induction l with
  | nil => intro acc; exact Nat.le_refl _
  | cons e es ih =>
    intro acc
    rw [List.foldl_cons]
    exact Nat.le_trans (portScanStep_mono cwd acc e) (ih _)

/-- Every matching numeric key of the registry is dominated (in
length) by the key the scan returns. -/
lemma portScan_dominates (cwd : String) :
    ∀ (l : List (String × JVal)) (acc : String × Option Int) (wp : String)
      (p : Int), (wp, JVal.num p) ∈ l → cwdMatches cwd wp = true →
      wp.length ≤ (l.foldl (portScanStep cwd) acc).1.length := by
  intro l
  induction l with
  | nil =>
    intro acc wp p hmem
    simp at hmem
  | cons e es ih =>
    intro acc wp p hmem hm
    rw [List.foldl_cons]
    rcases List.mem_cons.mp hmem with he | hes
    · subst he
      by_cases h : cwdMatches cwd wp = true ∧ acc.1.length < wp.length
      · have hstep : portScanStep cwd acc (wp, JVal.num p) = (wp, some p) := by
          simp [portScanStep, h]
        rw [hstep]
        exact portScan_mono cwd es (wp, some p)
      · have hle : wp.length ≤ acc.1.length := by
          rcases Decidable.not_and_iff_or_not.mp h with h1 | h2
          · exact absurd hm h1
          · exact Nat.le_of_not_lt h2
        exact Nat.le_trans hle
          (Nat.le_trans (portScanStep_mono cwd acc (wp, JVal.num p))
            (portScan_mono cwd es _))
    · exact ih (portScanStep cwd acc e) wp p hes hm

/-- Claim C3: for every registry of (non-empty, absolute) workspace
keys and every working directory — when some numeric entry matches the
working directory, the lookup returns the port of a matching entry of
maximal key length (the longest prefix match under path-separator
boundaries); with entries `/a` and `/a/b` on different ports, a lookup
from `/a/b/c` returns the `/a/b` port; when no entry matches, it falls
back to the first remaining numeric entry, or to the default 4711 when
none exists; a missing or unreadable registry yields 4711. -/
theorem getPortFromConfig_longest_match (entries : List (String × JVal))
    (cwd : String) :
    (∀ wp p, (∀ e ∈ entries, 0 < (e.1 : String).length) →
      (wp, JVal.num p) ∈ entries → cwdMatches cwd wp = true →
      ∃ wp2 p2, (wp2, JVal.num p2) ∈ entries ∧ cwdMatches cwd wp2 = true ∧
        getPortFromConfig (some entries) cwd = p2 ∧
        ∀ wp3 p3, (wp3, JVal.num p3) ∈ entries → cwdMatches cwd wp3 = true →
          wp3.length ≤ wp2.length)
    ∧ getPortFromConfig
        (some [("/a", JVal.num 1111), ("/a/b", JVal.num 2222)]) "/a/b/c"
        = 2222
    ∧ ((∀ wp p, (wp, JVal.num p) ∈ entries → cwdMatches cwd wp = false) →
      getPortFromConfig (some entries) cwd
        = (registryNumericPorts entries).headD 4711)
    ∧ getPortFromConfig none cwd = 4711 := by
  refine ⟨?_, by rfl, ?_, rfl⟩
  · intro wp p hkeys hmem hm
    have hdom := portScan_dominates cwd entries ("", none) wp p hmem hm
    have hpos : 0 < wp.length := hkeys (wp, JVal.num p) hmem
    rcases portScan_cases cwd entries ("", none) with h | ⟨wp2, p2, hmem2, hm2, h⟩
    · rw [h] at hdom
      simp at hdom
      omega
    · refine ⟨wp2, p2, hmem2, hm2, ?_, ?_⟩
      · simp only [getPortFromConfig, bestRegistryMatch, h]
      · intro wp3 p3 hmem3 hm3
        have := portScan_dominates cwd entries ("", none) wp3 p3 hmem3 hm3
        rw [h] at this
        exact this
  · intro hnone
    rcases portScan_cases cwd entries ("", none) with h | ⟨wp2, p2, hmem2, hm2, h⟩
    · simp only [getPortFromConfig, bestRegistryMatch, h]
      cases hports : registryNumericPorts entries with
      | nil => rfl
      | cons p ps => rfl
    · exact absurd hm2 (by simp [hnone wp2 p2 hmem2])

/-- Claim C3 witness: the longest-match clause at the `/a` · `/a/b`
registry, and the fallback clause at a non-matching single-entry
registry. -/
theorem getPortFromConfig_longest_match_witness :
    (("/a", JVal.num 1111) ∈
        [("/a", JVal.num 1111), ("/a/b", JVal.num 2222)]) ∧
    cwdMatches "/a/b/c" "/a" = true ∧
    (∃ wp2 p2,
      ((wp2, JVal.num p2) ∈ [("/a", JVal.num 1111), ("/a/b", JVal.num 2222)]) ∧
      cwdMatches "/a/b/c" wp2 = true ∧
      getPortFromConfig
          (some [("/a", JVal.num 1111), ("/a/b", JVal.num 2222)]) "/a/b/c"
        = p2 ∧
      ∀ wp3 p3,
        (wp3, JVal.num p3) ∈ [("/a", JVal.num 1111), ("/a/b", JVal.num 2222)] →
        cwdMatches "/a/b/c" wp3 = true → wp3.length ≤ wp2.length) ∧
    getPortFromConfig (some [("/x", JVal.num 9000)]) "/y" = 9000 := by
  refine ⟨List.mem_cons_self _ _, rfl, ?_, ?_⟩
  · exact (getPortFromConfig_longest_match
      [("/a", JVal.num 1111), ("/a/b", JVal.num 2222)] "/a/b/c").1
      "/a" 1111
      (by
        intro e he
        rcases List.mem_cons.mp he with h | h
        · rw [h]; decide
        · rcases List.mem_cons.mp h with h2 | h2
          · rw [h2]; decide
          · simp at h2)
      (List.mem_cons_self _ _) rfl
  · have hfb := ((getPortFromConfig_longest_match
      [("/x", JVal.num 9000)] "/y").2.2.1)
      (by
        intro wp p hmem
        rcases List.mem_cons.mp hmem with h | h
        · have hwp : wp = "/x" := congrArg Prod.fst h
          rw [hwp]; rfl
        · simp at h)
    simpa using hfb

end DebugMcp
